import Mathlib

/-!
Verification of the Zumo 32U4 line follower (`src/kdh_line.ino`).

The control core is embedded shallowly: the `float` arithmetic of the
program is idealised as exact rational arithmetic (`ℚ`), the `int` line
position as `ℤ`, and the mutable globals `pause` / `desired_lin_speed`
as an explicit state record threaded through the per-cycle button
handling of `loop`.
-/

/-- Embedding of `setLinRotSpeeds` (src/kdh_line.ino lines 69-93).
Nominal allocation is `left = lin - rot`, `right = lin + rot`; an ordered
if/else chain then constrains the speeds, shifting the opposite side to
preserve rotation and clamping it if the shift overflows.  Returns the
pair `(left_speed, right_speed)` handed to `motors.setSpeeds`. -/
def setLinRotSpeeds (lin_speed rot_speed : ℚ) : ℚ × ℚ :=
  let left_speed := lin_speed - rot_speed
  let right_speed := lin_speed + rot_speed
  if left_speed > 400 then
    let right1 := right_speed - (left_speed - 400)
    let right2 := if right1 < -400 then -400 else right1
    (400, right2)
  else if right_speed > 400 then
    let left1 := left_speed - (right_speed - 400)
    let left2 := if left1 < -400 then -400 else left1
    (left2, 400)
  else if left_speed < -400 then
    let right1 := right_speed - (left_speed + 400)
    let right2 := if right1 > 400 then 400 else right1
    (-400, right2)
  else if right_speed < -400 then
    let left1 := left_speed - (right_speed + 400)
    let left2 := if left1 > 400 then 400 else left1
    (left2, -400)
  else (left_speed, right_speed)

/-- C3: for every (lin, rot) whose nominal wheel speeds `lin - rot` and
`lin + rot` both lie within [-400, 400], the allocator returns exactly
the nominal pair `(lin - rot, lin + rot)` unchanged. -/
theorem allocator_nominal_unchanged (lin rot : ℚ)
    (h1 : -400 ≤ lin - rot) (h2 : lin - rot ≤ 400)
    (h3 : -400 ≤ lin + rot) (h4 : lin + rot ≤ 400) :
    setLinRotSpeeds lin rot = (lin - rot, lin + rot) := by
  simp only [setLinRotSpeeds]
  split_ifs with hl hr hl2 hr2 <;> first | rfl | linarith

/-- Witness for `allocator_nominal_unchanged` at the in-range input
(lin, rot) = (100, 50). -/
theorem allocator_nominal_unchanged_witness :
    setLinRotSpeeds 100 50 = (100 - 50, 100 + 50) :=
  allocator_nominal_unchanged 100 50 (by norm_num) (by norm_num)
    (by norm_num) (by norm_num)

/-- C10: a pure straight-line command stays straight: for every lin, the
allocator applied to (lin, 0) returns equal left and right wheel speeds,
including when clamping occurs. -/
theorem allocator_straight_stays_straight (lin : ℚ) :
    (setLinRotSpeeds lin 0).1 = (setLinRotSpeeds lin 0).2 := by
  simp only [setLinRotSpeeds]
  split_ifs <;> simp_all <;> linarith

/-- C1: evaluation of the allocator at (lin, rot) = (1000, 100).  The
nominal pair is (900, 1100); the `left > 400` branch fires, the right
speed becomes 1100 - 500 = 600, and the inner check only guards the
lower bound, so the returned right speed 600 escapes [-400, 400].  This
contradicts the comment above `setLinRotSpeeds` ("Min and max is
[-400, 400]") and the claimed range invariant. -/
theorem allocator_range_violation :
    setLinRotSpeeds 1000 100 = (400, 600) ∧
    ¬ (setLinRotSpeeds 1000 100).2 ≤ 400 := by
  constructor <;> norm_num [setLinRotSpeeds]

/-- C2: whenever a clamp branch of the allocator fires (some nominal
wheel speed is out of [-400, 400]), the output preserves the rotation
difference, `right - left = 2 * rot`, unless the opposite side itself
also had to be clamped, in which case both output components sit at
their respective (opposite) limits. -/
theorem allocator_rotation_preserved (lin rot : ℚ)
    (_clamped : lin - rot > 400 ∨ lin + rot > 400 ∨
         lin - rot < -400 ∨ lin + rot < -400) :
    (setLinRotSpeeds lin rot).2 - (setLinRotSpeeds lin rot).1 = 2 * rot ∨
    setLinRotSpeeds lin rot = (400, -400) ∨
    setLinRotSpeeds lin rot = (-400, 400) := by
  simp only [setLinRotSpeeds]
  split_ifs with h1 h2 h3 h4 h5 h6 h7 h8 <;>
    simp only [Prod.mk.injEq] <;>
    first
      | (left; linarith)
      | norm_num

/-- Witness for `allocator_rotation_preserved` at (lin, rot) = (500, 0):
nominal (500, 500), the `left > 400` branch clamps, and the output
(400, 400) preserves the difference 2 * 0 = 0. -/
theorem allocator_rotation_preserved_witness :
    ((500 : ℚ) - 0 > 400 ∨ (500 : ℚ) + 0 > 400 ∨
      (500 : ℚ) - 0 < -400 ∨ (500 : ℚ) + 0 < -400) ∧
    ((setLinRotSpeeds 500 0).2 - (setLinRotSpeeds 500 0).1 = 2 * 0 ∨
      setLinRotSpeeds 500 0 = (400, -400) ∨
      setLinRotSpeeds 500 0 = (-400, 400)) :=
  ⟨Or.inl (by norm_num),
    allocator_rotation_preserved 500 0 (Or.inl (by norm_num))⟩

/-- C4: the boundary cases are checked first-match-wins in the order
left>400, right>400, left<-400, right<-400.  At (lin, rot) = (0, 500)
the nominal pair (-500, 500) triggers both `right > 400` and
`left < -400`; the `right > 400` branch wins, the left speed becomes
-600 and is clamped to -400, giving (-400, 400).  At
(lin, rot) = (700, -100) the nominal pair (800, 600) triggers both
`left > 400` and `right > 400`; the `left > 400` branch wins, giving
(400, 200) rather than the (600, 400) the `right > 400` branch would
have produced. -/
theorem allocator_ordered_checks :
    ((0 : ℚ) + 500 > 400) ∧ ((0 : ℚ) - 500 < -400) ∧
    setLinRotSpeeds 0 500 = (-400, 400) ∧
    ((700 : ℚ) - (-100) > 400) ∧ ((700 : ℚ) + (-100) > 400) ∧
    setLinRotSpeeds 700 (-100) = (400, 200) := by
  refine ⟨by norm_num, by norm_num, ?_, by norm_num, by norm_num, ?_⟩ <;>
    norm_num [setLinRotSpeeds]

/-- Steering gain `rot_gain` (src/kdh_line.ino line 28): 0.1. -/
def rot_gain : ℚ := 1 / 10

/-- Embedding of the steering law of `loop` (src/kdh_line.ino line 124):
`rot_speed = g * -(line_position - 2000)`, where the negation and
subtraction happen in integer arithmetic before the float multiply. -/
def steeringRotSpeed (g : ℚ) (line_position : ℤ) : ℚ :=
  g * ((-(line_position - 2000) : ℤ) : ℚ)

/-- Operator state: the mutable globals `pause` and `desired_lin_speed`
(src/kdh_line.ino lines 24 and 27). -/
structure OpState where
  pause : Bool
  desired_lin_speed : ℚ
  deriving DecidableEq

/-- Operator state at process start: `pause = true`,
`desired_lin_speed = 100.0` (src/kdh_line.ino lines 24, 27). -/
def initState : OpState :=
  { pause := true, desired_lin_speed := 100 }

/-- Velocity command fed to the allocator in one cycle of `loop`
(src/kdh_line.ino lines 124-130): rotational speed from the steering
law with the deployed gain, linear speed from the operator state; when
paused the call is `setLinRotSpeeds(0., 0.)`. -/
def velocityCommand (s : OpState) (line_position : ℤ) : ℚ × ℚ :=
  if s.pause then (0, 0)
  else (s.desired_lin_speed, steeringRotSpeed rot_gain line_position)

/-- Per-cycle button handling at the end of `loop` (src/kdh_line.ino
lines 144-160): a debounced press of A toggles `pause`, of B multiplies
`desired_lin_speed` by 0.9, of C multiplies it by 1.1. -/
def buttonStep (s : OpState) (a b c : Bool) : OpState :=
  let s1 := if a then { s with pause := !s.pause } else s
  let s2 :=
    if b then { s1 with desired_lin_speed := s1.desired_lin_speed * (9 / 10) }
    else s1
  if c then { s2 with desired_lin_speed := s2.desired_lin_speed * (11 / 10) }
  else s2

/-- Operator states reachable across cycles: the initial state, closed
under one cycle of button handling. -/
inductive Reachable : OpState → Prop
  | init : Reachable initState
  | step (s : OpState) (a b c : Bool) : Reachable s → Reachable (buttonStep s a b c)

/-- C5: the steering controller computes `r = g * -(p - 2000)` for every
gain g and line position p; in particular p = 2000 gives r = 0 for any
gain, p = 0 with g = 0.1 gives r = 200, and p = 4000 with g = 0.1 gives
r = -200. -/
theorem steering_law :
    (∀ (g : ℚ) (p : ℤ), steeringRotSpeed g p = g * -((p : ℚ) - 2000)) ∧
    (∀ g : ℚ, steeringRotSpeed g 2000 = 0) ∧
    steeringRotSpeed (1 / 10) 0 = 200 ∧
    steeringRotSpeed (1 / 10) 4000 = -200 := by
  refine ⟨fun g p => ?_, fun g => by simp [steeringRotSpeed],
    by norm_num [steeringRotSpeed], by norm_num [steeringRotSpeed]⟩
  simp only [steeringRotSpeed]
  push_cast
  ring

/-- C6: in every cycle in which the operator state is paused, the
velocity command passed to the allocator is exactly (0, 0), whatever
the line position. -/
theorem pause_forces_zero_command (s : OpState) (line_position : ℤ)
    (h : s.pause = true) :
    velocityCommand s line_position = (0, 0) := by
  simp [velocityCommand, h]

/-- Witness for `pause_forces_zero_command` at the initial state and
line position 1234. -/
theorem pause_forces_zero_command_witness :
    initState.pause = true ∧ velocityCommand initState 1234 = (0, 0) :=
  ⟨rfl, pause_forces_zero_command initState 1234 rfl⟩

/-- C7: the operator state starts with `pause = true` and the fixed
default `desired_lin_speed = 100`, and the per-cycle button events act
field-wise: a toggle-pause press flips `pause`, a decrease-speed press
multiplies the desired linear speed by 0.9, an increase-speed press
multiplies it by 1.1, and nothing else changes either field. -/
theorem operator_state_lifecycle :
    initState.pause = true ∧ initState.desired_lin_speed = 100 ∧
    ∀ (s : OpState) (a b c : Bool),
      (buttonStep s a b c).pause = (if a then !s.pause else s.pause) ∧
      (buttonStep s a b c).desired_lin_speed =
        s.desired_lin_speed * (if b then (9 : ℚ) / 10 else 1) *
          (if c then (11 : ℚ) / 10 else 1) := by
  refine ⟨rfl, rfl, fun s a b c => ?_⟩
  cases a <;> cases b <;> cases c <;> simp [buttonStep]

/-- State-transformer embedding of a call to `setLinRotSpeeds` at the
whole-program level: the function body reads only its two parameters
and local variables, leaves the mutable globals untouched, and its sole
effect is the wheel pair handed to `motors.setSpeeds`, modelled as the
returned pair. -/
def setLinRotSpeedsCall (s : OpState) (lin_speed rot_speed : ℚ) :
    OpState × (ℚ × ℚ) :=
  (s, setLinRotSpeeds lin_speed rot_speed)

/-- C8: the allocator is a deterministic pure function of its two
arguments: calls from any two global states with identical (lin, rot)
inputs compute the identical wheel speed pair, and the global state is
unchanged by the call. -/
theorem allocator_pure_deterministic (s t : OpState) (lin rot : ℚ) :
    (setLinRotSpeedsCall s lin rot).2 = (setLinRotSpeedsCall t lin rot).2 ∧
    (setLinRotSpeedsCall s lin rot).1 = s :=
  ⟨rfl, rfl⟩

/-- C9: in every reachable operator state the desired linear speed is
strictly positive: it starts at 100 and every button cycle multiplies
it by 0.9, 1.1, both, or neither, so it never reaches zero or turns
negative. -/
theorem desired_speed_positive (s : OpState) (h : Reachable s) :
    0 < s.desired_lin_speed := by
  induction h with
  | init => norm_num [initState]
  | step s a b c _ ih =>
    cases a <;> cases b <;> cases c <;> simp [buttonStep] <;> positivity

/-- Witness for `desired_speed_positive` at the state reached from
start by one cycle pressing all three buttons. -/
theorem desired_speed_positive_witness :
    Reachable (buttonStep initState true true true) ∧
    0 < (buttonStep initState true true true).desired_lin_speed :=
  ⟨Reachable.step initState true true true Reachable.init,
    desired_speed_positive (buttonStep initState true true true)
      (Reachable.step initState true true true Reachable.init)⟩
